import Mathlib

/-! # Traffic dashboard: state synchronisation and lifecycle handlers

A shallow embedding of the three React components of the dashboard
(`map_view.jsx`, `sos_panel.jsx`, `violations.jsx`).

* Component state (`useState` cells) is a structure; every handler is a function
  from the state before to the state after, together with the effects it issued
  (requests, timers, notifications) and whether it ended in an uncaught exception.
* `await fetch(..)` / `await response.json()` are represented by their outcome,
  which the handler receives as an argument.
* The JSX of a component is represented by the list of controls it renders.
-/

namespace TrafficDashboard

/-! ## JavaScript values -/

/-- A JavaScript value as far as the components handle one: what `JSON.parse` can
return, `undefined` (the result of reading a missing property) and the built-in
members reached through `Object.prototype`. The fields of `obj` are the own
enumerable properties in enumeration order. -/
inductive JSValue where
  | undefined
  | null
  | bool (b : Bool)
  | num (q : ℚ)
  | str (s : String)
  | arr (items : List JSValue)
  | obj (fields : List (String × JSValue))
  | builtin (name : String)

/-- The outcome of `await fetch(url)` followed by `await response.json()`:
`failed` when either promise rejects (network error, unparsable body). -/
inductive FetchResult (α : Type) where
  | failed
  | ok (data : α)

/-- The index keys `"0"`, `"1"`, ... paired with the elements of a sequence. -/
def indexEntries (xs : List JSValue) : List (String × JSValue) :=
  (List.range xs.length).map toString |>.zip xs

/-- The result of `Object.entries(v)`; `none` is the TypeError raised for `undefined` and
`null`. -/
def objectEntries : JSValue → Option (List (String × JSValue))
  | .undefined => none
  | .null => none
  | .bool _ => some []
  | .num _ => some []
  | .str s => some (indexEntries (s.toList.map fun c => .str c.toString))
  | .arr items => some (indexEntries items)
  | .obj fields => some fields
  | .builtin _ => some []

/-- The properties copied by a spread `...v` inside an object literal: none for
`undefined`, `null` and the other primitives. -/
def spreadEntries (v : JSValue) : List (String × JSValue) :=
  (objectEntries v).getD []

/-- Definition of property `k` with value `v` on an object under construction: an
existing property keeps its place and takes the new value, a new one is added last. -/
def setProp : List (String × JSValue) → String → JSValue → List (String × JSValue)
  | [], k, v => [(k, v)]
  | (k0, v0) :: rest, k, v =>
    if k0 = k then (k0, v) :: rest else (k0, v0) :: setProp rest k v

/-- The result of the property read `v[k]` on a value produced by `JSON.parse`: `none` is
the TypeError raised when `v` is `undefined` or `null`, a missing property reads as
`undefined`. -/
def getProp : JSValue → String → Option JSValue
  | .undefined, _ => none
  | .null, _ => none
  | .obj fields, k => some ((fields.lookup k).getD .undefined)
  | .arr items, k => some (((indexEntries items).lookup k).getD .undefined)
  | _, _ => some .undefined

/-! ## `map_view.jsx` -/

/-- State cells of `MapView`. -/
structure MapView where
  junctions : List JSValue
  vehicles : JSValue
  selectedJunction : Option JSValue

/-- The state at mount: `useState([])`, `useState([])`, `useState(null)`. -/
def MapView.initial : MapView :=
  { junctions := [], vehicles := .arr [], selectedJunction := none }

/-- The table `positions` of `getJunctionPosition`. -/
def positions : List (String × JSValue) :=
  [ ("J0", .arr [.num 12.9716, .num 77.5946]),
    ("J1", .arr [.num 12.9750, .num 77.6000]),
    ("J2", .arr [.num 12.9680, .num 77.5900]),
    ("J3", .arr [.num 12.9800, .num 77.5950]),
    ("J4", .arr [.num 12.9650, .num 77.6050]) ]

/-- The property names every object literal inherits from `Object.prototype`; a read
`positions[name]` of one of them yields the inherited member, which is truthy. -/
def objectPrototypeMembers : List String :=
  [ "constructor", "__defineGetter__", "__defineSetter__", "hasOwnProperty",
    "__lookupGetter__", "__lookupSetter__", "isPrototypeOf", "propertyIsEnumerable",
    "toString", "valueOf", "__proto__", "toLocaleString" ]

/-- The function `getJunctionPosition`: `positions[junctionId] || [12.9716, 77.5946]`. -/
def getJunctionPosition (junctionId : String) : JSValue :=
  match positions.lookup junctionId with
  | some p => p
  | none =>
    if junctionId ∈ objectPrototypeMembers then .builtin junctionId
    else .arr [.num 12.9716, .num 77.5946]

/-- The record `{ id, position: getJunctionPosition(id), ...info }` built for one entry. -/
def junctionRecord (id : String) (info : JSValue) : JSValue :=
  .obj ((spreadEntries info).foldl (fun fields kv => setProp fields kv.1 kv.2)
    [("id", .str id), ("position", getJunctionPosition id)])

/-- The function `fetchJunctionData`, given the outcome of its request. A failed request and a
TypeError from `Object.entries` both end in the `catch` block, which only logs. -/
def fetchJunctionData (r : FetchResult JSValue) (s : MapView) : MapView :=
  match r with
  | .failed => s
  | .ok data =>
    match objectEntries data with
    | none => s
    | some entries =>
      { s with junctions := entries.map fun e => junctionRecord e.1 e.2 }

/-- The function `fetchVehicleData`, given the outcome of its request. -/
def fetchVehicleData (r : FetchResult JSValue) (s : MapView) : MapView :=
  match r with
  | .failed => s
  | .ok data => { s with vehicles := data }

/-- One polling tick: the interval callback starts both fetches, which complete
independently; `junctionFirst` tells whose completion is handled first. -/
def pollTick (rj rv : FetchResult JSValue) (junctionFirst : Bool) (s : MapView) : MapView :=
  if junctionFirst then fetchVehicleData rv (fetchJunctionData rj s)
  else fetchJunctionData rj (fetchVehicleData rv s)

/-! ## What a handler leaves behind -/

/-- The result of running a handler: the component state it leaves, the effects it
issued in order, and whether it ended in an uncaught exception (state updates and
effects made before the throw stand). -/
structure Outcome (σ ε : Type) where
  state : σ
  effects : List ε
  threw : Bool

/-- The outcome of the `PUT .../status` request of a lifecycle handler: the `fetch`
promise rejected (`threw`), or it resolved with `response.ok` false (`rejected`) or true
(`ok`). -/
inductive UpdateResult where
  | threw
  | rejected
  | ok
  deriving DecidableEq

/-! ## `sos_panel.jsx` -/

/-- An alert record of the active-alert list, with the fields the handlers and the
controls read. -/
structure SOSAlert where
  id : Nat
  emergency_type : String
  priority : Int
  status : String
  deriving DecidableEq

/-- State cells of `SOSPanel`. -/
structure SOSPanel where
  activeSOS : List SOSAlert
  selectedSOS : Option SOSAlert
  newAlert : Bool
  deriving DecidableEq

/-- The state at mount: `useState([])`, `useState(null)`, `useState(false)`. -/
def SOSPanel.initial : SOSPanel :=
  { activeSOS := [], selectedSOS := none, newAlert := false }

/-- Effects a handler of `SOSPanel` can issue. -/
inductive SOSEffect where
  /-- a call of `fetchActiveSOS()`: one `GET /api/sos/active` goes out -/
  | fetchActive
  /-- the call `new Notification(title, ...)` whose body interpolates `emergencyType` -/
  | notify (title : String) (emergencyType : JSValue)
  /-- the call `setTimeout(() => setNewAlert(false), delay)` -/
  | setTimeout (delay : Nat)

/-- The function `fetchActiveSOS`, given the outcome of its request: the parsed body replaces the
list, a failure is logged. -/
def fetchActiveSOS (r : FetchResult (List SOSAlert)) (s : SOSPanel) : SOSPanel :=
  match r with
  | .failed => s
  | .ok data => { s with activeSOS := data }

/-- The function `showNotification`: `none` is the TypeError of `data.emergency_type` on a `data` that
is `undefined` or `null`, raised only when the permission is granted. -/
def showNotification (permissionGranted : Bool) (title : String) (data : JSValue) :
    Option (List SOSEffect) :=
  if permissionGranted then
    match getProp data "emergency_type" with
    | none => none
    | some v => some [.notify title v]
  else some []

/-- The strict comparison `v === s` against a string literal. -/
def strictEqStr : JSValue → String → Bool
  | .str t, s => t == s
  | _, _ => false

/-- The handler `ws.onmessage`. `payload` is the result of `JSON.parse(event.data)`,
`none` when it throws a SyntaxError; there is no `try` around the handler body. -/
def wsOnMessage (permissionGranted : Bool) (payload : Option JSValue) (s : SOSPanel) :
    Outcome SOSPanel SOSEffect :=
  match payload with
  | none => { state := s, effects := [], threw := true }
  | some message =>
    match getProp message "type" with
    | none => { state := s, effects := [], threw := true }
    | some ty =>
      if strictEqStr ty "sos_alert" then
        let s1 := { s with newAlert := true }
        match showNotification permissionGranted "New SOS Alert!"
            ((getProp message "data").getD .undefined) with
        | none => { state := s1, effects := [.fetchActive], threw := true }
        | some shown =>
          { state := s1, effects := .fetchActive :: shown ++ [.setTimeout 5000],
            threw := false }
      else { state := s, effects := [], threw := false }

/-- The handler `handleSOSResponse(sosId, action)`, given the outcome of its `PUT` request: the part
of the handler that runs after the `await`. -/
def handleSOSResponse (_sosId : Nat) (_action : String) (r : UpdateResult) (s : SOSPanel) :
    Outcome SOSPanel SOSEffect :=
  match r with
  | .ok => { state := { s with selectedSOS := none }, effects := [.fetchActive],
             threw := false }
  | .rejected => { state := s, effects := [], threw := false }
  | .threw => { state := s, effects := [], threw := false }

/-- The update requests offered by one list item (`sos-actions`): the buttons are
rendered for every item. -/
def sosActions (sos : SOSAlert) : List (SOSAlert × String) :=
  [(sos, "responding"), (sos, "dispatched")]

/-- The update requests offered by the detail panel (`detail-actions`), rendered whenever
`selectedSOS` is set. -/
def SOSPanel.detailActions (s : SOSPanel) : List (SOSAlert × String) :=
  match s.selectedSOS with
  | none => []
  | some sel => [(sel, "completed"), (sel, "cancelled")]

/-- Every update request the rendered panel can issue: the record whose button is
pressed and the target status passed to `handleSOSResponse` with that record's id. -/
def SOSPanel.offeredUpdates (s : SOSPanel) : List (SOSAlert × String) :=
  s.activeSOS.flatMap sosActions ++ s.detailActions

/-- The fixed transition table of the alert lifecycle. -/
def sosTransitions : List (String × String) :=
  [ ("active", "responding"), ("responding", "dispatched"),
    ("dispatched", "completed"), ("dispatched", "cancelled") ]

/-! ### The panel in its environment -/

/-- The mounted panel with what is outstanding around it: the clock in milliseconds,
the due times of the pending `setNewAlert(false)` timers, the number of
`GET /api/sos/active` requests in flight and the `PUT` requests in flight. -/
structure SOSWorld where
  ui : SOSPanel
  now : Nat
  timers : List Nat
  fetches : Nat
  updates : List (Nat × String)
  deriving DecidableEq

/-- The panel right after mount: the effect hook has called `fetchActiveSOS()` once. -/
def SOSWorld.mounted : SOSWorld :=
  { ui := SOSPanel.initial, now := 0, timers := [], fetches := 1, updates := [] }

/-- Registration of one issued effect. -/
def SOSWorld.issue (w : SOSWorld) : SOSEffect → SOSWorld
  | .fetchActive => { w with fetches := w.fetches + 1 }
  | .notify _ _ => w
  | .setTimeout delay => { w with timers := w.timers ++ [w.now + delay] }

/-- Delivery of a push message to `ws.onmessage`. An uncaught exception of the handler is
reported by the browser and the page goes on. -/
def SOSWorld.receive (w : SOSWorld) (permissionGranted : Bool) (payload : Option JSValue) :
    SOSWorld :=
  let o := wsOnMessage permissionGranted payload w.ui
  o.effects.foldl SOSWorld.issue { w with ui := o.state }

/-- Passage of `ms` milliseconds without any other event: every timer that falls due
runs its callback `setNewAlert(false)`. -/
def SOSWorld.elapse (w : SOSWorld) (ms : Nat) : SOSWorld :=
  let t := w.now + ms
  { w with
    now := t
    timers := w.timers.filter fun due => t < due
    ui := if w.timers.any fun due => due ≤ t then { w.ui with newAlert := false } else w.ui }

/-- What can happen to the mounted panel. -/
inductive SOSEvent where
  /-- a `GET /api/sos/active` in flight completes -/
  | fetchDone (r : FetchResult (List SOSAlert))
  /-- a push message arrives -/
  | message (permissionGranted : Bool) (payload : Option JSValue)
  /-- click on a list item -/
  | select (sos : SOSAlert)
  /-- click on the close button of the detail panel -/
  | closeDetail
  /-- click on one of the four status buttons -/
  | press (sos : SOSAlert) (action : String)
  /-- a `PUT` in flight completes -/
  | updateDone (id : Nat) (action : String) (r : UpdateResult)
  /-- time passes -/
  | elapse (ms : Nat)

/-- One event of the panel; `none` when the event cannot happen in this state (nothing
in flight to complete, control not rendered). -/
def SOSWorld.step (w : SOSWorld) : SOSEvent → Option SOSWorld
  | .fetchDone r =>
    if w.fetches = 0 then none
    else some { w with ui := fetchActiveSOS r w.ui, fetches := w.fetches - 1 }
  | .message p payload => some (w.receive p payload)
  | .select sos =>
    if sos ∈ w.ui.activeSOS then some { w with ui := { w.ui with selectedSOS := some sos } }
    else none
  | .closeDetail =>
    if w.ui.selectedSOS.isSome then some { w with ui := { w.ui with selectedSOS := none } }
    else none
  | .press sos action =>
    if (sos, action) ∈ w.ui.offeredUpdates then
      some { w with updates := (sos.id, action) :: w.updates }
    else none
  | .updateDone id action r =>
    if (id, action) ∈ w.updates then
      let o := handleSOSResponse id action r w.ui
      some (o.effects.foldl SOSWorld.issue
        { w with ui := o.state, updates := w.updates.erase (id, action) })
    else none
  | .elapse ms => some (w.elapse ms)

/-- A sequence of events from a given state. -/
def SOSWorld.run (w : SOSWorld) : List SOSEvent → Option SOSWorld
  | [] => some w
  | ev :: rest => (w.step ev).bind fun w1 => w1.run rest

/-- The bodies of the successful active-alert fetches of a trace, in completion order. -/
def fetchedBodies : List SOSEvent → List (List SOSAlert)
  | [] => []
  | .fetchDone (.ok data) :: rest => data :: fetchedBodies rest
  | _ :: rest => fetchedBodies rest

/-- A push event of a timeline: arrival time in milliseconds, the notification
permission at that moment and the parsed message. -/
structure PushEvent where
  time : Nat
  permissionGranted : Bool
  message : JSValue

/-- Delivery of the push events of a timeline, each at its arrival time. -/
def SOSWorld.deliver (w : SOSWorld) : List PushEvent → SOSWorld
  | [] => w
  | e :: rest =>
    ((w.elapse (e.time - w.now)).receive e.permissionGranted (some e.message)).deliver rest

/-- The flag `newAlert` at instant `t` of a timeline of push events on a freshly mounted
panel: the events due by `t` are delivered, then the clock is moved to `t`. -/
def newAlertAt (events : List PushEvent) (t : Nat) : Bool :=
  let w := SOSWorld.mounted.deliver (events.filter fun e => e.time ≤ t)
  (w.elapse (t - w.now)).ui.newAlert

/-- A well-formed alert event as the handler needs it to run to its end: `type` is the
string `"sos_alert"` and, if notifications are permitted, `data` is neither `undefined`
nor `null`. -/
def PushEvent.wellFormed (e : PushEvent) : Bool :=
  match getProp e.message "type" with
  | some ty =>
    strictEqStr ty "sos_alert" &&
      (showNotification e.permissionGranted "New SOS Alert!"
        ((getProp e.message "data").getD .undefined)).isSome
  | none => false

/-! ## `violations.jsx` -/

/-- A violation record, with the fields the handlers and the controls read.
`timestamp` is the value of `new Date(v.timestamp)` in milliseconds, `none` for an
invalid date. -/
structure Violation where
  id : Nat
  vehicle_id : String
  violation_type : String
  status : String
  fine_amount : ℚ
  timestamp : Option Int
  officer_notes : String
  deriving DecidableEq

/-- State cells of `Violations`. -/
structure Violations where
  violations : List Violation
  selectedViolation : Option Violation
  filter : String
  sortBy : String
  analytics : JSValue

/-- The state at mount. -/
def Violations.initial : Violations :=
  { violations := [], selectedViolation := none, filter := "all", sortBy := "timestamp",
    analytics := .obj [] }

/-- Effects a handler of `Violations` can issue. -/
inductive ViolationsEffect where
  /-- a call of `fetchViolations()` -/
  | fetchViolations
  /-- a call of `fetchAnalytics()` -/
  | fetchAnalytics
  deriving DecidableEq

/-- The handler `handleViolationAction(violationId, action, notes)`, given the outcome of
its `PUT` request: the part of the handler that runs after the `await`. -/
def handleViolationAction (_violationId : Nat) (_action _notes : String) (r : UpdateResult)
    (s : Violations) : Outcome Violations ViolationsEffect :=
  match r with
  | .ok => { state := { s with selectedViolation := none },
             effects := [.fetchViolations, .fetchAnalytics], threw := false }
  | .rejected => { state := s, effects := [], threw := false }
  | .threw => { state := s, effects := [], threw := false }

/-- The update requests offered by one list item (`quick-actions`), rendered under
`violation.status === 'pending'`. -/
def quickActions (violation : Violation) : List (Violation × String) :=
  if violation.status = "pending" then [(violation, "approved"), (violation, "rejected")]
  else []

/-- The update requests offered by the detail panel (`detail-actions`), rendered under
`selectedViolation && selectedViolation.status === 'pending'`. -/
def Violations.detailActions (s : Violations) : List (Violation × String) :=
  match s.selectedViolation with
  | none => []
  | some sel =>
    if sel.status = "pending" then
      [(sel, "approved"), (sel, "rejected"), (sel, "under_review")]
    else []

/-- Every status-update request the rendered view can issue: the record whose button is
pressed and the target status passed to `handleViolationAction` with that record's id. -/
def Violations.offeredUpdates (s : Violations) : List (Violation × String) :=
  s.violations.flatMap quickActions ++ s.detailActions

/-- A well-formed alert event of the kind the push channel delivers, arriving at `t`. -/
def alertEvent (t : Nat) : PushEvent :=
  { time := t, permissionGranted := false, message := .obj [("type", .str "sos_alert")] }

/-- An alert record with the given id and status (a medical emergency of priority 9). -/
def sampleAlert (id : Nat) (status : String) : SOSAlert :=
  { id := id, emergency_type := "medical", priority := 9, status := status }

/-- A parsed push message `{type: "sos_alert", data: {id, emergency_type: "fire"}}`. -/
def pushedAlert (id : Nat) : JSValue :=
  .obj [("type", .str "sos_alert"),
        ("data", .obj [("id", .num id), ("emergency_type", .str "fire")])]

/-- The ids of the records of a list of alerts, in order. -/
def alertIds (alerts : List SOSAlert) : List Nat :=
  alerts.map fun a => a.id

/-- The body of the most recently completed successful fetch of a trace, the empty list
before any completes. -/
def lastFetched (trace : List SOSEvent) : List SOSAlert :=
  (fetchedBodies trace).getLast?.getD []

/-- The scenario of a requested `responding` overtaken by the server: the first fetch
shows alert 1 as `active`, the officer presses Respond, the update succeeds, and the
refresh it triggers shows alert 1 as `dispatched`. -/
def respondThenDispatched : List SOSEvent :=
  [ .fetchDone (.ok [sampleAlert 1 "active"]),
    .press (sampleAlert 1 "active") "responding",
    .updateDone 1 "responding" .ok,
    .fetchDone (.ok [sampleAlert 1 "dispatched"]) ]

/-- The scenario of an alert that leaves the active set while selected: alert 1 is
fetched and selected, a push event triggers a refresh, and the refreshed list is empty. -/
def selectedThenGone : List SOSEvent :=
  [ .fetchDone (.ok [sampleAlert 1 "active"]),
    .select (sampleAlert 1 "active"),
    .message false (some (pushedAlert 2)),
    .fetchDone (.ok []) ]

/-- The scenario of a push event for alert 7 racing two polls that each return alert 1
twice. -/
def pushRacesPoll : List SOSEvent :=
  [ .message false (some (pushedAlert 7)),
    .fetchDone (.ok [sampleAlert 1 "active", sampleAlert 1 "responding"]),
    .fetchDone (.ok [sampleAlert 1 "active", sampleAlert 1 "responding"]) ]

/-- The state in which `respondThenDispatched` ends. -/
def respondThenDispatchedEnd : SOSWorld :=
  { ui := { activeSOS := [sampleAlert 1 "dispatched"], selectedSOS := none,
            newAlert := false },
    now := 0, timers := [], fetches := 0, updates := [] }

/-- The state in which `pushRacesPoll` ends. -/
def pushRacesPollEnd : SOSWorld :=
  { ui := { activeSOS := [sampleAlert 1 "active", sampleAlert 1 "responding"],
            selectedSOS := none, newAlert := true },
    now := 0, timers := [5000], fetches := 0, updates := [] }

/-- The state in which `selectedThenGone` ends. -/
def selectedThenGoneEnd : SOSWorld :=
  { ui := { activeSOS := [], selectedSOS := some (sampleAlert 1 "active"),
            newAlert := true },
    now := 0, timers := [5000], fetches := 0, updates := [] }

/-- The scenario of a Dispatch pressed on an alert that is still `active`. -/
def dispatchOnActive : List SOSEvent :=
  [ .fetchDone (.ok [sampleAlert 1 "active"]),
    .press (sampleAlert 1 "active") "dispatched" ]

/-- A state with the detail panel open on alert 1 and its `completed` request in
flight. -/
def completePending : SOSWorld :=
  { ui := { activeSOS := [sampleAlert 1 "dispatched", sampleAlert 2 "active"],
            selectedSOS := some (sampleAlert 1 "dispatched"), newAlert := false },
    now := 0, timers := [], fetches := 0, updates := [(1, "completed")] }

/-- A violation record with the given id and status (a speeding violation fined 1200). -/
def sampleViolation (id : Nat) (status : String) : Violation :=
  { id := id, vehicle_id := "KA01AB1234", violation_type := "SPEEDING_VIOLATION",
    status := status, fine_amount := 1200, timestamp := some 0, officer_notes := "" }

/-- A state of the violations view listing a pending and an approved violation, with
the detail panel open on the pending one. -/
def reviewInProgress : Violations :=
  { Violations.initial with
    violations := [sampleViolation 1 "pending", sampleViolation 2 "approved"]
    selectedViolation := some (sampleViolation 1 "pending") }

/-! ## Further parts of the components -/

/-- The function `getJunctionColor` on a numeric efficiency. -/
def getJunctionColor (efficiency : ℚ) : String :=
  if efficiency ≥ 85 then "#4CAF50"
  else if efficiency ≥ 70 then "#FF9800"
  else "#F44336"

/-- The property `v[k]` when it is a number. -/
def numProp (v : JSValue) (k : String) : Option ℚ :=
  match getProp v k with
  | some (.num q) => some q
  | _ => none

/-- The props of the `Circle` rendered for a junction record. -/
structure Circle where
  center : JSValue
  radius : ℚ
  color : String
  fillColor : String

/-- The `Circle` element built by the callback of `junctions.map` for one junction
record. The callback first builds the `Popup` lines, which call
`junction.avg_speed.toFixed(1)`, `junction.efficiency.toFixed(1)` and
`junction.waiting_time.toFixed(1)`: each call throws a TypeError unless the field is a
number, and then the render is abandoned and no circle is drawn (`none`). After them come
`radius={junction.vehicles_count * 10}`, `color={getJunctionColor(junction.efficiency)}`
and the same for `fillColor`. A `vehicles_count` that is not a number is coerced by the
multiplication; that coercion is not modelled and also gives `none`. -/
def junctionCircle (junction : JSValue) : Option Circle :=
  match numProp junction "avg_speed", numProp junction "efficiency",
      numProp junction "waiting_time" with
  | some _, some efficiency, some _ =>
    match numProp junction "vehicles_count" with
    | some count =>
      some { center := (getProp junction "position").getD .undefined,
             radius := count * 10,
             color := getJunctionColor efficiency,
             fillColor := getJunctionColor efficiency }
    | none => none
  | _, _, _ => none

/-- The mounted map with its telemetry requests in flight. -/
structure MapWorld where
  ui : MapView
  junctionFetches : Nat
  vehicleFetches : Nat

/-- The map right after mount: the effect hook has called `fetchJunctionData()` and
`fetchVehicleData()` once and started the interval. -/
def MapWorld.mounted : MapWorld :=
  { ui := MapView.initial, junctionFetches := 1, vehicleFetches := 1 }

/-- What can happen to the mounted map. -/
inductive MapEvent where
  /-- the interval callback fires -/
  | tick
  /-- a junction request in flight completes -/
  | junctionDone (r : FetchResult JSValue)
  /-- a vehicle request in flight completes -/
  | vehicleDone (r : FetchResult JSValue)

/-- One event of the map; `none` when nothing is in flight to complete. The interval
callback is `() => { fetchJunctionData(); fetchVehicleData(); }`. -/
def MapWorld.step (w : MapWorld) : MapEvent → Option MapWorld
  | .tick =>
    some { w with junctionFetches := w.junctionFetches + 1,
                  vehicleFetches := w.vehicleFetches + 1 }
  | .junctionDone r =>
    if w.junctionFetches = 0 then none
    else some { w with ui := fetchJunctionData r w.ui,
                       junctionFetches := w.junctionFetches - 1 }
  | .vehicleDone r =>
    if w.vehicleFetches = 0 then none
    else some { w with ui := fetchVehicleData r w.ui,
                       vehicleFetches := w.vehicleFetches - 1 }

/-- A sequence of events of the map from a given state. -/
def MapWorld.run (w : MapWorld) : List MapEvent → Option MapWorld
  | [] => some w
  | ev :: rest => (w.step ev).bind fun w1 => w1.run rest

/-- The query parameters of the request of `fetchViolations`:
`if (filter !== 'all') params.append('status', filter)`. -/
def violationsParams (filter : String) : List (String × String) :=
  if filter ≠ "all" then [("status", filter)] else []

/-- The comparator passed to `data.sort` in `fetchViolations`; `none` is the `NaN` that
the subtraction of an invalid date yields. -/
def compareViolations (sortBy : String) (a b : Violation) : Option ℚ :=
  if sortBy = "timestamp" then
    match b.timestamp, a.timestamp with
    | some tb, some ta => some ((tb - ta : Int) : ℚ)
    | _, _ => none
  else if sortBy = "fine_amount" then some (b.fine_amount - a.fine_amount)
  else some 0

/-- The method `Array.prototype.sort(comparefn)`: a `NaN` result counts as `0`, and `x`
is left before `y` unless `comparefn(x, y) > 0`. The sort is stable; for a consistent
comparator the language fixes this result, for an inconsistent one the order is
implementation-defined and this is one permitted order. -/
def arraySort {α : Type} (comparefn : α → α → Option ℚ) (xs : List α) : List α :=
  xs.insertionSort fun x y => (comparefn x y).getD 0 ≤ 0

/-- The function `fetchViolations`, given the outcome of its request; `sortBy` is the
sort key of the render whose effect issued the call. -/
def fetchViolations (sortBy : String) (r : FetchResult (List Violation)) (s : Violations) :
    Violations :=
  match r with
  | .failed => s
  | .ok data => { s with violations := arraySort (compareViolations sortBy) data }

/-- The function `getSeverityColor` on a numeric fine amount. -/
def getSeverityColor (fineAmount : ℚ) : String :=
  if fineAmount ≥ 1000 then "#f44336"
  else if fineAmount ≥ 500 then "#ff9800"
  else "#4caf50"

/-- The rank of a severity colour: low 0, medium 1, high 2. -/
def severityRank (color : String) : Nat :=
  if color = "#f44336" then 2 else if color = "#ff9800" then 1 else 0

/-- A parsed push message `{type: "sos_alert"}` without a `data` field. -/
def alertWithoutData : JSValue :=
  .obj [("type", .str "sos_alert")]

/-- A metrics record with 40 vehicles and efficiency 62, all six metric fields present. -/
def congestedMetrics : JSValue :=
  .obj [("vehicles_count", .num 40), ("avg_speed", .num 18.5), ("efficiency", .num 62),
        ("waiting_time", .num 45), ("queue_length", .num 12), ("green_duration", .num 30)]

/-- A junction response holding `congestedMetrics` for `J2`. -/
def congestedJ2 : JSValue :=
  .obj [("J2", congestedMetrics)]

/-- A metrics record that has only `vehicles_count` and `efficiency`. -/
def sparseMetrics : JSValue :=
  .obj [("vehicles_count", .num 40), ("efficiency", .num 62)]

/-- A junction response whose metrics record for `J1` carries an `id` and a `position`
of its own. -/
def clashingJ1 : JSValue :=
  .obj [("J1", .obj [("id", .str "X"), ("position", .null), ("vehicles_count", .num 3)])]

/-- Three violations in an order that is sorted by neither key. -/
def unsortedViolations : List Violation :=
  [ { sampleViolation 1 "pending" with fine_amount := 500, timestamp := some 20 },
    { sampleViolation 2 "pending" with fine_amount := 1200, timestamp := some 10 },
    { sampleViolation 3 "approved" with fine_amount := 800, timestamp := some 30 } ]

/-! ## The violations view in its environment -/

/-- The function `fetchAnalytics`, given the outcome of its request. -/
def fetchAnalytics (r : FetchResult JSValue) (s : Violations) : Violations :=
  match r with
  | .failed => s
  | .ok data => { s with analytics := data }

/-- A status update in flight: the arguments of `handleViolationAction` and the sort key
of the render whose button was pressed, which the `fetchViolations` called after the
`await` still uses. -/
structure PendingUpdate where
  id : Nat
  action : String
  notes : String
  sortBy : String
  deriving DecidableEq

/-- The mounted violations view with what is outstanding around it: the sort keys of
the `fetchViolations` calls in flight, the number of `fetchAnalytics` calls in flight and
the status updates in flight. -/
structure ViolationsWorld where
  ui : Violations
  listFetches : List String
  analyticsFetches : Nat
  updates : List PendingUpdate

/-- The view right after mount: the effect hook has called `fetchViolations()` and
`fetchAnalytics()` once. -/
def ViolationsWorld.mounted : ViolationsWorld :=
  { ui := Violations.initial, listFetches := ["timestamp"], analyticsFetches := 1,
    updates := [] }

/-- Registration of one issued effect; `sortBy` is the sort key of the render that
issued it. -/
def ViolationsWorld.issue (sortBy : String) (w : ViolationsWorld) :
    ViolationsEffect → ViolationsWorld
  | .fetchViolations => { w with listFetches := w.listFetches ++ [sortBy] }
  | .fetchAnalytics => { w with analyticsFetches := w.analyticsFetches + 1 }

/-- The values of the filter `select`. -/
def filterOptions : List String := ["all", "pending", "approved", "rejected"]

/-- The values of the sort `select`. -/
def sortOptions : List String := ["timestamp", "fine_amount"]

/-- What can happen to the mounted violations view. -/
inductive ViolationsEvent where
  /-- a `fetchViolations` call in flight, issued under `sortBy`, completes -/
  | listDone (sortBy : String) (r : FetchResult (List Violation))
  /-- a `fetchAnalytics` call in flight completes -/
  | analyticsDone (r : FetchResult JSValue)
  /-- click on a list item -/
  | select (violation : Violation)
  /-- click on the close button of the detail panel -/
  | closeDetail
  /-- another value is chosen in the filter `select` -/
  | setFilter (value : String)
  /-- another value is chosen in the sort `select` -/
  | setSortBy (value : String)
  /-- click on a quick-action or detail-action button -/
  | press (violation : Violation) (action notes : String)
  /-- a status update in flight completes -/
  | updateDone (u : PendingUpdate) (r : UpdateResult)

/-- One event of the violations view; `none` when the event cannot happen in this state.
A change of `filter` or `sortBy` re-runs the effect hook, which calls `fetchViolations()`
and `fetchAnalytics()`; neither touches `selectedViolation`. -/
def ViolationsWorld.step (w : ViolationsWorld) : ViolationsEvent → Option ViolationsWorld
  | .listDone sortBy r =>
    if sortBy ∈ w.listFetches then
      some { w with ui := fetchViolations sortBy r w.ui,
                    listFetches := w.listFetches.erase sortBy }
    else none
  | .analyticsDone r =>
    if w.analyticsFetches = 0 then none
    else some { w with ui := fetchAnalytics r w.ui,
                       analyticsFetches := w.analyticsFetches - 1 }
  | .select violation =>
    if violation ∈ w.ui.violations then
      some { w with ui := { w.ui with selectedViolation := some violation } }
    else none
  | .closeDetail =>
    if w.ui.selectedViolation.isSome then
      some { w with ui := { w.ui with selectedViolation := none } }
    else none
  | .setFilter value =>
    if value ∈ filterOptions ∧ value ≠ w.ui.filter then
      some ([ViolationsEffect.fetchViolations, .fetchAnalytics].foldl
        (ViolationsWorld.issue w.ui.sortBy) { w with ui := { w.ui with filter := value } })
    else none
  | .setSortBy value =>
    if value ∈ sortOptions ∧ value ≠ w.ui.sortBy then
      some ([ViolationsEffect.fetchViolations, .fetchAnalytics].foldl
        (ViolationsWorld.issue value) { w with ui := { w.ui with sortBy := value } })
    else none
  | .press violation action notes =>
    if (violation, action) ∈ w.ui.offeredUpdates then
      some { w with updates :=
        { id := violation.id, action := action, notes := notes, sortBy := w.ui.sortBy }
          :: w.updates }
    else none
  | .updateDone u r =>
    if u ∈ w.updates then
      let o := handleViolationAction u.id u.action u.notes r w.ui
      some (o.effects.foldl (ViolationsWorld.issue u.sortBy)
        { w with ui := o.state, updates := w.updates.erase u })
    else none

/-- A sequence of events of the violations view from a given state. -/
def ViolationsWorld.run (w : ViolationsWorld) : List ViolationsEvent → Option ViolationsWorld
  | [] => some w
  | ev :: rest => (w.step ev).bind fun w1 => w1.run rest

/-- The status that the list displays for the violation with the given id: the badge of
its list item, `none` when the list has no such item. The detail panel displays no
status. -/
def displayedStatus (s : Violations) (id : Nat) : Option String :=
  (s.violations.find? fun v => v.id = id).map fun v => v.status

/-- The scenario of a detail panel that outlives a refresh: violation 1 is fetched as
`pending` and selected, the officer changes the sort key, the list is fetched again and
now shows violation 1 as `approved`, and the officer presses Approve in the panel. -/
def stalePanel : List ViolationsEvent :=
  [ .listDone "timestamp" (.ok [sampleViolation 1 "pending"]),
    .select (sampleViolation 1 "pending"),
    .setSortBy "fine_amount",
    .listDone "fine_amount" (.ok [sampleViolation 1 "approved"]),
    .press (sampleViolation 1 "pending") "approved" "" ]

/-! ## Properties -/

/-! ### Telemetry polling -/

/-- C1: in a polling tick whose junction fetch fails and whose vehicle fetch succeeds
with body `V`, `junctions` is unchanged and `vehicles` is `V`; in a tick whose vehicle
fetch fails and whose junction fetch succeeds with a mapping, `vehicles` is unchanged and
`junctions` is the snapshot built from the mapping. Both hold in either order of
completion of the two requests. -/
theorem pollTick_independent (s : MapView) (V : JSValue) (fields : List (String × JSValue))
    (junctionFirst : Bool) :
    ((pollTick .failed (.ok V) junctionFirst s).junctions = s.junctions ∧
      (pollTick .failed (.ok V) junctionFirst s).vehicles = V) ∧
    ((pollTick (.ok (.obj fields)) .failed junctionFirst s).vehicles = s.vehicles ∧
      (pollTick (.ok (.obj fields)) .failed junctionFirst s).junctions =
        fields.map fun e => junctionRecord e.1 e.2) := by
  cases junctionFirst <;>
    simp [pollTick, fetchJunctionData, fetchVehicleData, objectEntries]

/-! ### The transient flag `newAlert` -/

theorem issue_notify_foldl (w : SOSWorld) (shown : List SOSEffect)
    (h : ∀ x ∈ shown, ∃ title v, x = SOSEffect.notify title v) :
    shown.foldl SOSWorld.issue w = w := by
  induction shown generalizing w with
  | nil => rfl
  | cons x rest ih =>
    obtain ⟨title, v, rfl⟩ := h x (List.mem_cons_self _ _)
    simpa [SOSWorld.issue] using ih w fun y hy => h y (List.mem_cons_of_mem _ hy)

theorem showNotification_notifies {p : Bool} {title : String} {data : JSValue}
    {shown : List SOSEffect} (h : showNotification p title data = some shown) :
    ∀ x ∈ shown, ∃ t v, x = SOSEffect.notify t v := by
  unfold showNotification at h
  split at h
  · split at h
    · cases h
    · cases h
      intro x hx
      simp only [List.mem_singleton] at hx
      exact ⟨_, _, hx⟩
  · cases h
    intro x hx
    cases hx

theorem wsOnMessage_alert (p : Bool) (message ty : JSValue) (shown : List SOSEffect)
    (s : SOSPanel) (hty : getProp message "type" = some ty)
    (heq : strictEqStr ty "sos_alert" = true)
    (hsh : showNotification p "New SOS Alert!"
      ((getProp message "data").getD .undefined) = some shown) :
    wsOnMessage p (some message) s =
      { state := { s with newAlert := true },
        effects := .fetchActive :: shown ++ [.setTimeout 5000], threw := false } := by
  simp [wsOnMessage, hty, heq, hsh]

theorem receive_wellFormed (w : SOSWorld) (e : PushEvent) (h : e.wellFormed = true) :
    w.receive e.permissionGranted (some e.message) =
      { w with ui := { w.ui with newAlert := true }, fetches := w.fetches + 1,
               timers := w.timers ++ [w.now + 5000] } := by
  unfold PushEvent.wellFormed at h
  cases hty : getProp e.message "type" with
  | none => simp [hty] at h
  | some ty =>
    simp only [hty, Bool.and_eq_true] at h
    cases hsh : showNotification e.permissionGranted "New SOS Alert!"
        ((getProp e.message "data").getD .undefined) with
    | none => simp [hsh] at h
    | some shown =>
      unfold SOSWorld.receive
      rw [wsOnMessage_alert _ _ ty shown _ hty h.1 hsh]
      simp only [List.foldl_cons, List.foldl_append, List.foldl_nil]
      rw [issue_notify_foldl _ shown (showNotification_notifies hsh)]
      rfl

theorem elapse_to (w : SOSWorld) (t : Nat) (h : w.now ≤ t) :
    (w.elapse (t - w.now)).now = t ∧
    (w.elapse (t - w.now)).timers = w.timers.filter (fun due => t < due) ∧
    ((w.elapse (t - w.now)).ui.newAlert = true ↔
      w.ui.newAlert = true ∧ ∀ d ∈ w.timers, t < d) := by
  have ht : w.now + (t - w.now) = t := by omega
  refine ⟨by simp [SOSWorld.elapse, ht], by simp [SOSWorld.elapse, ht], ?_⟩
  simp only [SOSWorld.elapse, ht]
  by_cases hany : (w.timers.any fun due => decide (due ≤ t)) = true
  · simp only [hany, if_true]
    obtain ⟨d, hd, hdt⟩ := List.any_eq_true.mp hany
    constructor
    · intro h0
      cases h0
    · rintro ⟨-, hall⟩
      have := hall d hd
      have := of_decide_eq_true hdt
      omega
  · simp only [hany]
    constructor
    · intro h0
      refine ⟨h0, fun d hd => ?_⟩
      by_contra hlt
      exact hany (List.any_eq_true.mpr ⟨d, hd, decide_eq_true (by omega)⟩)
    · exact fun h0 => h0.1

theorem deliver_newAlert (t : Nat) (es : List PushEvent) :
    ∀ w : SOSWorld, es.Pairwise (fun a b => a.time ≤ b.time) →
      (∀ e ∈ es, e.wellFormed = true) → (∀ e ∈ es, w.now ≤ e.time) →
      (∀ e ∈ es, e.time ≤ t) → w.now ≤ t →
      (((w.deliver es).elapse (t - (w.deliver es).now)).ui.newAlert = true ↔
        (es = [] ∧ w.ui.newAlert = true ∧ ∀ d ∈ w.timers, t < d) ∨
        ∃ e ∈ es, (∀ d ∈ w.timers, d ≤ t → d ≤ e.time) ∧
          ∀ x ∈ es, x.time + 5000 ≤ t → x.time + 5000 ≤ e.time) := by
  induction es with
  | nil =>
    intro w _ _ _ _ hnow
    simpa [SOSWorld.deliver] using (elapse_to w t hnow).2.2
  | cons e rest ih =>
    intro w hsorted hwf hlo hhi hnow
    have hle : w.now ≤ e.time := hlo e (List.mem_cons_self _ _)
    have het : e.time ≤ t := hhi e (List.mem_cons_self _ _)
    obtain ⟨hrel, hsorted1⟩ := List.pairwise_cons.mp hsorted
    obtain ⟨hn, htm, -⟩ := elapse_to w e.time hle
    obtain ⟨w1, hw1⟩ : ∃ w1, w1 =
      (w.elapse (e.time - w.now)).receive e.permissionGranted (some e.message) := ⟨_, rfl⟩
    have hrecv := receive_wellFormed (w.elapse (e.time - w.now)) e
      (hwf e (List.mem_cons_self _ _))
    rw [← hw1] at hrecv
    have h1now : w1.now = e.time := by rw [hrecv]; exact hn
    have h1flag : w1.ui.newAlert = true := by rw [hrecv]
    have h1mem : ∀ d, d ∈ w1.timers ↔ (d ∈ w.timers ∧ e.time < d) ∨ d = e.time + 5000 := by
      intro d
      rw [hrecv]
      simp [htm, hn]
    have hstep : w.deliver (e :: rest) = w1.deliver rest := by rw [hw1]; rfl
    rw [hstep, ih w1 hsorted1 (fun x hx => hwf x (List.mem_cons_of_mem _ hx))
      (fun x hx => h1now ▸ hrel x hx) (fun x hx => hhi x (List.mem_cons_of_mem _ hx))
      (h1now ▸ het)]
    constructor
    · rintro (⟨rfl, -, hall⟩ | ⟨e2, he2, hall, hrest⟩)
      · right
        refine ⟨e, List.mem_cons_self _ _, fun d hd hdt => ?_, fun x hx hxt => ?_⟩
        · by_contra hlt
          have := hall d ((h1mem d).mpr (Or.inl ⟨hd, by omega⟩))
          omega
        · have hxe : x = e := by simpa using hx
          subst hxe
          have := hall _ ((h1mem _).mpr (Or.inr rfl))
          omega
      · right
        have h12 := hrel e2 he2
        refine ⟨e2, List.mem_cons_of_mem _ he2, fun d hd hdt => ?_, fun x hx hxt => ?_⟩
        · by_cases hlt : e.time < d
          · exact hall d ((h1mem d).mpr (Or.inl ⟨hd, hlt⟩)) hdt
          · omega
        · rcases List.mem_cons.mp hx with rfl | hx
          · exact hall _ ((h1mem _).mpr (Or.inr rfl)) hxt
          · exact hrest x hx hxt
    · rintro (⟨h0, -⟩ | ⟨e0, he0, hall, hmap⟩)
      · cases h0
      · cases rest with
        | nil =>
          left
          have he0e : e0 = e := by simpa using he0
          subst he0e
          refine ⟨rfl, h1flag, fun d hd => ?_⟩
          by_contra hlt
          rcases (h1mem d).mp hd with ⟨hd, hdlt⟩ | hd
          · have := hall d hd (by omega)
            omega
          · have := hmap e0 (List.mem_cons_self _ _) (by omega)
            omega
        | cons e1 rest1 =>
          right
          rcases List.mem_cons.mp he0 with rfl | he0
          · have h01 := hrel e1 (List.mem_cons_self _ _)
            refine ⟨e1, List.mem_cons_self _ _, fun d hd hdt => ?_, fun x hx hxt => ?_⟩
            · rcases (h1mem d).mp hd with ⟨hd, -⟩ | hd
              · have := hall d hd hdt
                omega
              · have := hmap e0 (List.mem_cons_self _ _) (by omega)
                omega
            · have := hmap x (List.mem_cons_of_mem _ hx) hxt
              omega
          · refine ⟨e0, he0, fun d hd hdt => ?_, fun x hx hxt => ?_⟩
            · rcases (h1mem d).mp hd with ⟨hd, -⟩ | hd
              · exact hall d hd hdt
              · subst hd
                exact hmap e (List.mem_cons_self _ _) hdt
            · exact hmap x (List.mem_cons_of_mem _ hx) hxt

/-- C2 (as stated, refuted): two well-formed alert events arrive at 0 ms and 3000 ms,
less than 5 seconds apart, and 5500 ms is earlier than 5 seconds after the last one, yet
`newAlert` is false at 5500 ms: the timer of the first event has cleared it. -/
theorem newAlert_cleared_within_burst :
    (alertEvent 0).wellFormed = true ∧ (alertEvent 3000).wellFormed = true ∧
    (alertEvent 3000).time < (alertEvent 0).time + 5000 ∧
    (alertEvent 0).time ≤ 5500 ∧ 5500 < (alertEvent 3000).time + 5000 ∧
    newAlertAt [alertEvent 0, alertEvent 3000] 5500 = false := by
  decide

/-- C2 (amended): for well-formed alert events in chronological order, `newAlert` is true
at instant `t` exactly when some event `e` has arrived by `t` and no clear timer falls
due after `e` and at or before `t`, where every event has its own timer, due 5000 ms
after that event and untouched by later events. In particular the flag is true from the
first event until 5000 ms after the first event. -/
theorem newAlertAt_iff (events : List PushEvent) (t : Nat)
    (hsorted : events.Pairwise fun a b => a.time ≤ b.time)
    (hwf : ∀ e ∈ events, e.wellFormed = true) :
    (newAlertAt events t = true ↔
      ∃ e ∈ events, e.time ≤ t ∧
        ∀ x ∈ events, x.time + 5000 ≤ t → x.time + 5000 ≤ e.time) ∧
    (∀ first ∈ events.head?, first.time ≤ t → t < first.time + 5000 →
      newAlertAt events t = true) := by
  have hiff : newAlertAt events t = true ↔
      ∃ e ∈ events, e.time ≤ t ∧
        ∀ x ∈ events, x.time + 5000 ≤ t → x.time + 5000 ≤ e.time := by
    unfold newAlertAt
    simp only []
    rw [deliver_newAlert t _ SOSWorld.mounted (hsorted.sublist (List.filter_sublist _))
      (fun e he => hwf e (List.mem_filter.mp he).1) (fun e _ => Nat.zero_le _)
      (fun e he => of_decide_eq_true (List.mem_filter.mp he).2) (Nat.zero_le _)]
    constructor
    · rintro (⟨-, h0, -⟩ | ⟨e, he, -, hall⟩)
      · cases h0
      · obtain ⟨hmem, hle⟩ := List.mem_filter.mp he
        refine ⟨e, hmem, of_decide_eq_true hle, fun x hx hxt => ?_⟩
        exact hall x (List.mem_filter.mpr ⟨hx, decide_eq_true (by omega)⟩) hxt
    · rintro ⟨e, he, hle, hall⟩
      right
      refine ⟨e, List.mem_filter.mpr ⟨he, decide_eq_true hle⟩, ?_, fun x hx hxt => ?_⟩
      · intro d hd
        cases hd
      · exact hall x (List.mem_filter.mp hx).1 hxt
  refine ⟨hiff, fun first hfirst hle hlt => hiff.mpr ?_⟩
  cases events with
  | nil => cases hfirst
  | cons e rest =>
    have hfe : first = e := by
      simp only [List.head?_cons, Option.mem_def, Option.some.injEq] at hfirst
      exact hfirst.symm
    subst hfe
    refine ⟨first, List.mem_cons_self _ _, hle, fun x hx hxt => ?_⟩
    rcases List.mem_cons.mp hx with rfl | hx
    · omega
    · have := (List.pairwise_cons.mp hsorted).1 x hx
      omega

/-- C2 (amended), applied: with events at 0 ms and 3000 ms the flag is true at 4000 ms,
inside the 5000 ms after the first event. -/
theorem newAlertAt_iff_witness :
    ([alertEvent 0, alertEvent 3000].Pairwise fun a b => a.time ≤ b.time) ∧
    (∀ e ∈ [alertEvent 0, alertEvent 3000], e.wellFormed = true) ∧
    newAlertAt [alertEvent 0, alertEvent 3000] 4000 = true :=
  ⟨by decide, by decide,
    (newAlertAt_iff [alertEvent 0, alertEvent 3000] 4000 (by decide) (by decide)).2
      (alertEvent 0) rfl (by decide) (by decide)⟩

/-! ### The active-alert list and the selection -/

theorem issue_foldl_ui (effects : List SOSEffect) (w : SOSWorld) :
    (effects.foldl SOSWorld.issue w).ui = w.ui := by
  induction effects generalizing w with
  | nil => rfl
  | cons x rest ih =>
    rw [List.foldl_cons, ih]
    cases x <;> rfl

theorem wsOnMessage_keeps (p : Bool) (payload : Option JSValue) (s : SOSPanel) :
    (wsOnMessage p payload s).state.activeSOS = s.activeSOS ∧
    (wsOnMessage p payload s).state.selectedSOS = s.selectedSOS := by
  unfold wsOnMessage
  split
  · exact ⟨rfl, rfl⟩
  · split
    · exact ⟨rfl, rfl⟩
    · split
      · split <;> exact ⟨rfl, rfl⟩
      · exact ⟨rfl, rfl⟩

theorem step_activeSOS (w w1 : SOSWorld) (ev : SOSEvent) (h : w.step ev = some w1) :
    w1.ui.activeSOS =
      match ev with
      | .fetchDone (.ok data) => data
      | _ => w.ui.activeSOS := by
  cases ev with
  | fetchDone r =>
    simp only [SOSWorld.step] at h
    split at h
    · cases h
    · cases h
      cases r <;> rfl
  | message p payload =>
    simp only [SOSWorld.step, SOSWorld.receive, Option.some.injEq] at h
    subst h
    rw [issue_foldl_ui]
    exact (wsOnMessage_keeps p payload w.ui).1
  | select sos =>
    simp only [SOSWorld.step] at h
    split at h
    · cases h; rfl
    · cases h
  | closeDetail =>
    simp only [SOSWorld.step] at h
    split at h
    · cases h; rfl
    · cases h
  | press sos action =>
    simp only [SOSWorld.step] at h
    split at h
    · cases h; rfl
    · cases h
  | updateDone id action r =>
    simp only [SOSWorld.step] at h
    split at h
    · simp only [Option.some.injEq] at h
      subst h
      rw [issue_foldl_ui]
      cases r <;> rfl
    · cases h
  | elapse ms =>
    simp only [SOSWorld.step, Option.some.injEq] at h
    subst h
    simp only [SOSWorld.elapse]
    split <;> rfl

theorem fetchedBodies_cons (ev : SOSEvent) (rest : List SOSEvent) :
    fetchedBodies (ev :: rest) =
      match ev with
      | .fetchDone (.ok data) => data :: fetchedBodies rest
      | _ => fetchedBodies rest := by
  cases ev with
  | fetchDone r => cases r <;> rfl
  | _ => rfl

theorem run_activeSOS (trace : List SOSEvent) :
    ∀ w0 w : SOSWorld, w0.run trace = some w →
      w.ui.activeSOS = (fetchedBodies trace).getLast?.getD w0.ui.activeSOS := by
  induction trace with
  | nil =>
    intro w0 w h
    simp only [SOSWorld.run, Option.some.injEq] at h
    subst h
    rfl
  | cons ev rest ih =>
    intro w0 w h
    simp only [SOSWorld.run] at h
    cases hstep : w0.step ev with
    | none => simp [hstep] at h
    | some w1 =>
      simp only [hstep, Option.some_bind] at h
      rw [ih w1 w h, step_activeSOS w0 w1 ev hstep, fetchedBodies_cons]
      cases ev with
      | fetchDone r =>
        cases r with
        | failed => rfl
        | ok data =>
          simp only [List.getLast?_cons]
          cases (fetchedBodies rest).getLast? <;> rfl
      | _ => rfl

theorem step_selectedSOS (w w1 : SOSWorld) (ev : SOSEvent) (sel : SOSAlert)
    (h : w.step ev = some w1) (hsel : w1.ui.selectedSOS = some sel) :
    w.ui.selectedSOS = some sel ∨ sel ∈ w.ui.activeSOS := by
  cases ev with
  | fetchDone r =>
    simp only [SOSWorld.step] at h
    split at h
    · cases h
    · cases h
      left
      cases r <;> exact hsel
  | message p payload =>
    simp only [SOSWorld.step, SOSWorld.receive, Option.some.injEq] at h
    subst h
    rw [issue_foldl_ui] at hsel
    left
    rw [← (wsOnMessage_keeps p payload w.ui).2]
    exact hsel
  | select sos =>
    simp only [SOSWorld.step] at h
    split at h
    · next hmem =>
      cases h
      right
      simp only [Option.some.injEq] at hsel
      exact hsel ▸ hmem
    · cases h
  | closeDetail =>
    simp only [SOSWorld.step] at h
    split at h
    · cases h; cases hsel
    · cases h
  | press sos action =>
    simp only [SOSWorld.step] at h
    split at h
    · cases h; exact Or.inl hsel
    · cases h
  | updateDone id action r =>
    simp only [SOSWorld.step] at h
    split at h
    · simp only [Option.some.injEq] at h
      subst h
      rw [issue_foldl_ui] at hsel
      cases r
      · exact Or.inl hsel
      · exact Or.inl hsel
      · cases hsel
    · cases h
  | elapse ms =>
    simp only [SOSWorld.step, Option.some.injEq] at h
    subst h
    left
    simp only [SOSWorld.elapse] at hsel
    split at hsel <;> exact hsel

theorem fetchedBodies_mem_cons (ev : SOSEvent) (rest : List SOSEvent)
    (body : List SOSAlert) (h : body ∈ fetchedBodies rest) :
    body ∈ fetchedBodies (ev :: rest) := by
  rw [fetchedBodies_cons]
  cases ev with
  | fetchDone r =>
    cases r with
    | failed => exact h
    | ok data => exact List.mem_cons_of_mem _ h
  | _ => exact h

theorem run_selectedSOS (sel : SOSAlert) (trace : List SOSEvent) :
    ∀ w0 w : SOSWorld, w0.run trace = some w → w.ui.selectedSOS = some sel →
      w0.ui.selectedSOS = some sel ∨ sel ∈ w0.ui.activeSOS ∨
        ∃ body ∈ fetchedBodies trace, sel ∈ body := by
  induction trace with
  | nil =>
    intro w0 w h hsel
    simp only [SOSWorld.run, Option.some.injEq] at h
    subst h
    exact Or.inl hsel
  | cons ev rest ih =>
    intro w0 w h hsel
    simp only [SOSWorld.run] at h
    cases hstep : w0.step ev with
    | none => simp [hstep] at h
    | some w1 =>
      simp only [hstep, Option.some_bind] at h
      rcases ih w1 w h hsel with h1 | h1 | ⟨body, hb, hmem⟩
      · rcases step_selectedSOS w0 w1 ev sel hstep h1 with h0 | h0
        · exact Or.inl h0
        · exact Or.inr (Or.inl h0)
      · rw [step_activeSOS w0 w1 ev hstep] at h1
        cases ev with
        | fetchDone r =>
          cases r with
          | failed => exact Or.inr (Or.inl h1)
          | ok data => exact Or.inr (Or.inr ⟨data, List.mem_cons_self _ _, h1⟩)
        | _ => exact Or.inr (Or.inl h1)
      · exact Or.inr (Or.inr ⟨body, fetchedBodies_mem_cons ev rest body hb, hmem⟩)

/-- C3 (as stated, refuted): a push event for alert 7 races two polls that each return
alert 1 twice. The resulting list has two entries with id 1 and none with id 7. -/
theorem activeSOS_keeps_duplicates :
    (SOSWorld.mounted.run pushRacesPoll).map (fun w => alertIds w.ui.activeSOS) =
      some [1, 1] ∧
    ¬ [1, 1].Nodup ∧ 7 ∉ [1, 1] := by
  decide

/-- C3 (amended): in every reachable state the ids of `activeSOS` are the ids of the most
recently fetched list, in its order and with its repetitions; nothing of a push payload is
merged in and nothing is de-duplicated, so `activeSOS` has one record per id exactly when
that fetched list repeats no id. -/
theorem activeSOS_ids_of_lastFetched (trace : List SOSEvent) (w : SOSWorld)
    (h : SOSWorld.mounted.run trace = some w) :
    alertIds w.ui.activeSOS = alertIds (lastFetched trace) ∧
    ((alertIds w.ui.activeSOS).Nodup ↔ (alertIds (lastFetched trace)).Nodup) := by
  have hrun := run_activeSOS trace SOSWorld.mounted w h
  have heq : w.ui.activeSOS = lastFetched trace := hrun
  rw [heq]
  exact ⟨rfl, Iff.rfl⟩

/-- C3 (amended), applied to the race of a push event with two polls. -/
theorem activeSOS_ids_of_lastFetched_witness :
    SOSWorld.mounted.run pushRacesPoll = some pushRacesPollEnd ∧
    alertIds pushRacesPollEnd.ui.activeSOS = alertIds (lastFetched pushRacesPoll) :=
  ⟨by decide, (activeSOS_ids_of_lastFetched pushRacesPoll pushRacesPollEnd (by decide)).1⟩

/-- C4: in every reachable state `activeSOS` is the body of the most recently completed
successful fetch (empty before any completes); so two runs with the same successful fetch
bodies, whatever their push payloads and requested statuses, end with the same
`activeSOS`. -/
theorem activeSOS_eq_lastFetched (trace : List SOSEvent) (w : SOSWorld)
    (h : SOSWorld.mounted.run trace = some w) :
    w.ui.activeSOS = lastFetched trace ∧
    ∀ (trace2 : List SOSEvent) (w2 : SOSWorld), SOSWorld.mounted.run trace2 = some w2 →
      fetchedBodies trace2 = fetchedBodies trace → w2.ui.activeSOS = w.ui.activeSOS := by
  have hrun : w.ui.activeSOS = lastFetched trace := run_activeSOS trace SOSWorld.mounted w h
  refine ⟨hrun, fun trace2 w2 h2 hsame => ?_⟩
  have hrun2 : w2.ui.activeSOS = lastFetched trace2 :=
    run_activeSOS trace2 SOSWorld.mounted w2 h2
  rw [hrun, hrun2, lastFetched, lastFetched, hsame]

/-- C4, applied: a requested `responding` followed by a fetched `dispatched` displays
`dispatched`. -/
theorem activeSOS_eq_lastFetched_witness :
    SOSWorld.mounted.run respondThenDispatched = some respondThenDispatchedEnd ∧
    respondThenDispatchedEnd.ui.activeSOS = lastFetched respondThenDispatched ∧
    lastFetched respondThenDispatched = [sampleAlert 1 "dispatched"] :=
  ⟨by decide,
    (activeSOS_eq_lastFetched respondThenDispatched respondThenDispatchedEnd (by decide)).1,
    by decide⟩

/-- C5 (as stated, refuted): alert 1 is selected, then a refresh returns the empty list;
after the refresh `selectedSOS` is still the record of alert 1 although `activeSOS` holds
no alert with that id. -/
theorem selectedSOS_survives_refresh :
    (SOSWorld.mounted.run selectedThenGone).map
        (fun w => (w.ui.selectedSOS, alertIds w.ui.activeSOS)) =
      some (some (sampleAlert 1 "active"), []) ∧
    (sampleAlert 1 "active").id ∉ ([] : List Nat) := by
  decide

/-- C5 (amended): in every reachable state a non-null `selectedSOS` is a record of some
successfully fetched active-alert list of the run, and a refresh completing in that state
leaves `selectedSOS` exactly as it is, whatever the refreshed list contains. -/
theorem selectedSOS_fetched_and_kept (trace : List SOSEvent) (w : SOSWorld) (sel : SOSAlert)
    (h : SOSWorld.mounted.run trace = some w) (hsel : w.ui.selectedSOS = some sel) :
    (∃ body ∈ fetchedBodies trace, sel ∈ body) ∧
    ∀ (r : FetchResult (List SOSAlert)) (w1 : SOSWorld),
      w.step (.fetchDone r) = some w1 → w1.ui.selectedSOS = some sel := by
  constructor
  · rcases run_selectedSOS sel trace SOSWorld.mounted w h hsel with h0 | h0 | h0
    · cases h0
    · cases h0
    · exact h0
  · intro r w1 hstep
    simp only [SOSWorld.step] at hstep
    split at hstep
    · cases hstep
    · cases hstep
      cases r <;> exact hsel

/-- C5 (amended), applied: in the state where the selected alert 1 has left the active
set, the selection is a record of the first fetched list and survives a further
refresh. -/
theorem selectedSOS_fetched_and_kept_witness :
    SOSWorld.mounted.run selectedThenGone = some selectedThenGoneEnd ∧
    selectedThenGoneEnd.ui.selectedSOS = some (sampleAlert 1 "active") ∧
    ∃ body ∈ fetchedBodies selectedThenGone, sampleAlert 1 "active" ∈ body :=
  ⟨by decide, rfl,
    (selectedSOS_fetched_and_kept selectedThenGone selectedThenGoneEnd
      (sampleAlert 1 "active") (by decide) rfl).1⟩

/-! ### Lifecycle controls and handlers -/

/-- C6 (as stated, refuted): on a reachable panel showing alert 1 with status `active`
the Dispatch button issues an update request with target `dispatched`, and
(`active`, `dispatched`) is not an edge of the table; a list item whose status is
`completed` offers a request as well. -/
theorem dispatch_offered_outside_table :
    (SOSWorld.mounted.run dispatchOnActive).map (fun w => w.updates) =
      some [(1, "dispatched")] ∧
    ((sampleAlert 1 "active").status, "dispatched") ∉ sosTransitions ∧
    (sampleAlert 2 "completed", "responding") ∈
      ({ SOSPanel.initial with activeSOS := [sampleAlert 2 "completed"] }).offeredUpdates := by
  decide

/-- C6 (amended): the update requests the panel offers are, for every record of
`activeSOS` whatever its status, the targets `responding` and `dispatched`, and for the
record in `selectedSOS` whatever its status, the targets `completed` and `cancelled`;
nothing else is offered and the status of the record is not consulted. -/
theorem offeredUpdates_iff (s : SOSPanel) (sos : SOSAlert) (target : String) :
    (sos, target) ∈ s.offeredUpdates ↔
      (sos ∈ s.activeSOS ∧ (target = "responding" ∨ target = "dispatched")) ∨
      (s.selectedSOS = some sos ∧ (target = "completed" ∨ target = "cancelled")) := by
  unfold SOSPanel.offeredUpdates SOSPanel.detailActions sosActions
  simp only [List.mem_append, List.mem_flatMap, List.mem_cons, Prod.mk.injEq,
    List.mem_nil_iff, or_false]
  constructor
  · rintro (⟨a, ha, ⟨rfl, rfl⟩ | ⟨rfl, rfl⟩⟩ | hdet)
    · exact Or.inl ⟨ha, Or.inl rfl⟩
    · exact Or.inl ⟨ha, Or.inr rfl⟩
    · right
      cases hsel : s.selectedSOS with
      | none => simp [hsel] at hdet
      | some sel =>
        simp only [hsel, List.mem_cons, Prod.mk.injEq, List.mem_nil_iff, or_false] at hdet
        rcases hdet with ⟨rfl, rfl⟩ | ⟨rfl, rfl⟩
        · exact ⟨rfl, Or.inl rfl⟩
        · exact ⟨rfl, Or.inr rfl⟩
  · rintro (⟨ha, rfl | rfl⟩ | ⟨hsel, rfl | rfl⟩)
    · exact Or.inl ⟨sos, ha, Or.inl ⟨rfl, rfl⟩⟩
    · exact Or.inl ⟨sos, ha, Or.inr ⟨rfl, rfl⟩⟩
    · right
      simp [hsel]
    · right
      simp [hsel]

/-- C7: when the update request of `handleSOSResponse` succeeds, for any target status
and in particular for `completed` and `cancelled`, the handler triggers one refresh of the
active-alert list and sets `selectedSOS` to null; once that refresh completes with a list
that no longer holds the alert, the alert is not in `activeSOS` and no detail panel is
open. -/
theorem successful_update_refreshes_and_closes (w : SOSWorld) (id : Nat) (target : String)
    (hpending : (id, target) ∈ w.updates) :
    (handleSOSResponse id target .ok w.ui).effects = [.fetchActive] ∧
    (handleSOSResponse id target .ok w.ui).state.selectedSOS = none ∧
    ∃ w1, w.step (.updateDone id target .ok) = some w1 ∧
      w1.ui.selectedSOS = none ∧ w1.fetches = w.fetches + 1 ∧
      ∀ body : List SOSAlert, id ∉ alertIds body →
        ∃ w2, w1.step (.fetchDone (.ok body)) = some w2 ∧
          id ∉ alertIds w2.ui.activeSOS ∧ w2.ui.selectedSOS = none := by
  refine ⟨rfl, rfl, _, by simp only [SOSWorld.step, hpending, if_true]; rfl, rfl, rfl, ?_⟩
  intro body hbody
  refine ⟨_, by simp [SOSWorld.step, handleSOSResponse, SOSWorld.issue]; rfl, hbody, rfl⟩

/-- C7, applied to the request `completed` for alert 1 issued from its detail panel. -/
theorem successful_update_refreshes_and_closes_witness :
    (1, "completed") ∈ completePending.updates ∧
    (handleSOSResponse 1 "completed" .ok completePending.ui).effects = [.fetchActive] ∧
    (handleSOSResponse 1 "completed" .ok completePending.ui).state.selectedSOS = none :=
  ⟨by decide,
    (successful_update_refreshes_and_closes completePending 1 "completed" (by decide)).1,
    (successful_update_refreshes_and_closes completePending 1 "completed" (by decide)).2.1⟩

/-- C8 (as stated, refuted): violation 1 is selected while `pending`, the sort key is
changed and the refreshed list shows violation 1 as `approved`; the detail panel still
holds the `pending` copy and its Approve button issues a status update for violation 1,
whose displayed status is `approved`. -/
theorem stale_panel_updates_approved :
    (ViolationsWorld.mounted.run stalePanel).map
        (fun w => (displayedStatus w.ui 1,
          w.ui.selectedViolation.map (fun v => (v.id, v.status)),
          w.updates.map (fun u => (u.id, u.action)))) =
      some (some "approved", some (1, "pending"), [(1, "approved")]) ∧
    "approved" ≠ "pending" := by
  decide

/-- C8 (amended): a violation record whose status is not `pending` gets no quick-action
on the list item rendered from it and no control in a detail panel that holds it; every
status-update request the view offers is rendered from a list item or from the
`selectedViolation` copy, the status of that record is `pending` and the target is among
`approved`, `rejected` and `under_review`; and a refresh of the list leaves the
`selectedViolation` copy as it is. -/
theorem violation_controls_only_pending (s : Violations) (v : Violation) :
    (v.status ≠ "pending" →
      quickActions v = [] ∧ (s.selectedViolation = some v → s.detailActions = [])) ∧
    (∀ target, (v, target) ∈ s.offeredUpdates →
      (v ∈ s.violations ∨ s.selectedViolation = some v) ∧ v.status = "pending" ∧
        (target = "approved" ∨ target = "rejected" ∨ target = "under_review")) ∧
    (∀ (sortBy : String) (r : FetchResult (List Violation)),
      (fetchViolations sortBy r s).selectedViolation = s.selectedViolation) := by
  refine ⟨?_, ?_, ?_⟩
  · intro hne
    refine ⟨by simp [quickActions, hne], fun hsel => ?_⟩
    simp [Violations.detailActions, hsel, hne]
  · intro target hmem
    unfold Violations.offeredUpdates at hmem
    rcases List.mem_append.mp hmem with hq | hd
    · obtain ⟨a, hin, ha⟩ := List.mem_flatMap.mp hq
      unfold quickActions at ha
      split at ha
      · next hp =>
        simp only [List.mem_cons, Prod.mk.injEq, List.mem_nil_iff, or_false] at ha
        rcases ha with ⟨rfl, rfl⟩ | ⟨rfl, rfl⟩
        · exact ⟨Or.inl hin, hp, Or.inl rfl⟩
        · exact ⟨Or.inl hin, hp, Or.inr (Or.inl rfl)⟩
      · cases ha
    · unfold Violations.detailActions at hd
      split at hd
      · cases hd
      · next sel hsel =>
        split at hd
        · next hp =>
          simp only [List.mem_cons, Prod.mk.injEq, List.mem_nil_iff, or_false] at hd
          rcases hd with ⟨rfl, rfl⟩ | ⟨rfl, rfl⟩ | ⟨rfl, rfl⟩
          · exact ⟨Or.inr hsel, hp, Or.inl rfl⟩
          · exact ⟨Or.inr hsel, hp, Or.inr (Or.inl rfl)⟩
          · exact ⟨Or.inr hsel, hp, Or.inr (Or.inr rfl)⟩
        · cases hd
  · intro sortBy r
    cases r <;> rfl

/-- C8 (amended), applied: the approved violation 2 has no quick-action, and the request
`under_review` offered by the detail panel is rendered from the pending copy of
violation 1. -/
theorem violation_controls_only_pending_witness :
    (sampleViolation 2 "approved").status ≠ "pending" ∧
    quickActions (sampleViolation 2 "approved") = [] ∧
    (sampleViolation 1 "pending", "under_review") ∈ reviewInProgress.offeredUpdates ∧
    (sampleViolation 1 "pending").status = "pending" :=
  ⟨by decide,
    ((violation_controls_only_pending reviewInProgress (sampleViolation 2 "approved")).1
      (by decide)).1,
    by simp [reviewInProgress, Violations.offeredUpdates, Violations.detailActions,
      sampleViolation],
    ((violation_controls_only_pending reviewInProgress (sampleViolation 1 "pending")).2.1
      "under_review"
      (by simp [reviewInProgress, Violations.offeredUpdates, Violations.detailActions,
        sampleViolation])).2.1⟩

/-- C9: when the update request is rejected or throws, `handleSOSResponse` and
`handleViolationAction` end without an exception, leave every state cell as it was
(list, analytics, selection, filter and sort key) and issue no refresh. -/
theorem failed_update_changes_nothing (id : Nat) (action notes : String) (s : SOSPanel)
    (v : Violations) :
    (handleSOSResponse id action .rejected s = { state := s, effects := [], threw := false } ∧
      handleSOSResponse id action .threw s = { state := s, effects := [], threw := false }) ∧
    (handleViolationAction id action notes .rejected v =
        { state := v, effects := [], threw := false } ∧
      handleViolationAction id action notes .threw v =
        { state := v, effects := [], threw := false }) :=
  ⟨⟨rfl, rfl⟩, ⟨rfl, rfl⟩⟩

/-- C10 (the code at the failing inputs): on a payload that `JSON.parse` rejects and on
the payload `null` the handler `ws.onmessage` ends in an uncaught exception, with the
state unchanged and no effect issued; on a payload without `type`, on a non-object
payload and on an unrecognised `type` it completes and changes nothing. -/
theorem wsOnMessage_malformed (p : Bool) (s : SOSPanel) :
    (wsOnMessage p none s = { state := s, effects := [], threw := true } ∧
      wsOnMessage p (some .null) s = { state := s, effects := [], threw := true }) ∧
    (wsOnMessage p (some (.obj [])) s = { state := s, effects := [], threw := false } ∧
      wsOnMessage p (some (.num 5)) s = { state := s, effects := [], threw := false } ∧
      wsOnMessage p (some (.obj [("type", .str "heartbeat")])) s =
        { state := s, effects := [], threw := false }) := by
  refine ⟨⟨rfl, rfl⟩, ⟨rfl, rfl, ?_⟩⟩
  simp [wsOnMessage, getProp, strictEqStr]

/-! ### The alert handler on a well-typed event -/

/-- C11 (the code at the failing input): with the notification permission granted, a
message `{type: "sos_alert"}` without `data` raises `newAlert` and triggers the re-fetch,
then `showNotification` throws before `setTimeout` is reached: no clear is scheduled and
the flag stays raised however much time passes. With the permission not granted the same
message schedules the clear after 5000 ms. -/
theorem wsOnMessage_alert_without_data (s : SOSPanel) (ms : Nat) :
    wsOnMessage true (some alertWithoutData) s =
      { state := { s with newAlert := true }, effects := [.fetchActive], threw := true } ∧
    (SOSWorld.mounted.receive true (some alertWithoutData)).timers = [] ∧
    ((SOSWorld.mounted.receive true (some alertWithoutData)).elapse ms).ui.newAlert = true ∧
    wsOnMessage false (some alertWithoutData) s =
      { state := { s with newAlert := true }, effects := [.fetchActive, .setTimeout 5000],
        threw := false } :=
  ⟨rfl, rfl, rfl, rfl⟩

/-! ### The violations list -/

theorem orderedInsert_pairwise {α : Type} (r : α → α → Prop) [DecidableRel r]
    (P : α → Prop) (htot : ∀ x y, P x → P y → r x y ∨ r y x)
    (htrans : ∀ x y z, P x → P y → P z → r x y → r y z → r x z) (a : α) (ha : P a) :
    ∀ l : List α, (∀ x ∈ l, P x) → l.Pairwise r → (l.orderedInsert r a).Pairwise r := by
  intro l
  induction l with
  | nil =>
    intro _ _
    simp
  | cons b l ih =>
    intro hP hl
    have hb : P b := hP b (List.mem_cons_self _ _)
    obtain ⟨hbl, hl1⟩ := List.pairwise_cons.mp hl
    rw [List.orderedInsert]
    split_ifs with h
    · refine List.pairwise_cons.mpr ⟨fun x hx => ?_, hl⟩
      rcases List.mem_cons.mp hx with rfl | hx
      · exact h
      · exact htrans a b x ha hb (hP x (List.mem_cons_of_mem _ hx)) h (hbl x hx)
    · have hba : r b a := (htot a b ha hb).resolve_left h
      refine List.pairwise_cons.mpr
        ⟨fun x hx => ?_, ih (fun x hx => hP x (List.mem_cons_of_mem _ hx)) hl1⟩
      rcases (List.mem_orderedInsert r).mp hx with rfl | hx
      · exact hba
      · exact hbl x hx

theorem insertionSort_pairwise {α : Type} (r : α → α → Prop) [DecidableRel r]
    (P : α → Prop) (htot : ∀ x y, P x → P y → r x y ∨ r y x)
    (htrans : ∀ x y z, P x → P y → P z → r x y → r y z → r x z) :
    ∀ l : List α, (∀ x ∈ l, P x) → (l.insertionSort r).Pairwise r := by
  intro l
  induction l with
  | nil =>
    intro _
    simp
  | cons a l ih =>
    intro hP
    rw [List.insertionSort]
    refine orderedInsert_pairwise r P htot htrans a (hP a (List.mem_cons_self _ _)) _
      (fun x hx => hP x (List.mem_cons_of_mem _ ((List.mem_insertionSort r).mp hx)))
      (ih fun x hx => hP x (List.mem_cons_of_mem _ hx))

theorem compareViolations_timestamp (a b : Violation) (ta tb : Int)
    (ha : a.timestamp = some ta) (hb : b.timestamp = some tb) :
    (compareViolations "timestamp" a b).getD 0 ≤ 0 ↔ tb ≤ ta := by
  simp only [compareViolations, ha, hb, if_true, Option.getD_some]
  rw [← Int.cast_zero, Int.cast_le]
  omega

theorem compareViolations_fine_amount (a b : Violation) :
    (compareViolations "fine_amount" a b).getD 0 ≤ 0 ↔ b.fine_amount ≤ a.fine_amount := by
  have hne : ¬ ("fine_amount" = "timestamp") := by decide
  simp only [compareViolations, hne, if_false, if_true, Option.getD_some]
  exact sub_nonpos

/-- C12: the list stored by `fetchViolations` is a permutation of the returned sequence;
with sort key `timestamp` (timestamps being valid dates) every element's timestamp is at
or after that of every later element, with sort key `fine_amount` every element's fine is
no less than that of every later element, whatever the returned order; and the request
carries the parameter `status=<filter>` exactly when the filter is not `all`, and no
other parameter. -/
theorem fetchViolations_sorted (sortBy filter : String) (data : List Violation)
    (s : Violations) :
    (fetchViolations sortBy (.ok data) s).violations.Perm data ∧
    (sortBy = "timestamp" → (∀ v ∈ data, v.timestamp.isSome = true) →
      (fetchViolations sortBy (.ok data) s).violations.Pairwise fun a b =>
        ∀ ta tb, a.timestamp = some ta → b.timestamp = some tb → tb ≤ ta) ∧
    (sortBy = "fine_amount" →
      (fetchViolations sortBy (.ok data) s).violations.Pairwise fun a b =>
        b.fine_amount ≤ a.fine_amount) ∧
    ((("status", filter) ∈ violationsParams filter ↔ filter ≠ "all") ∧
      ∀ kv ∈ violationsParams filter, kv = ("status", filter)) := by
  refine ⟨List.perm_insertionSort _ data, ?_, ?_, ?_, ?_⟩
  · rintro rfl hvalid
    have hsorted := insertionSort_pairwise
      (fun x y => (compareViolations "timestamp" x y).getD 0 ≤ 0)
      (fun v : Violation => v.timestamp.isSome = true)
      (fun x y hx hy => by
        obtain ⟨tx, hx⟩ := Option.isSome_iff_exists.mp hx
        obtain ⟨ty, hy⟩ := Option.isSome_iff_exists.mp hy
        beta_reduce
        rw [compareViolations_timestamp x y tx ty hx hy,
          compareViolations_timestamp y x ty tx hy hx]
        omega)
      (fun x y z hx hy hz => by
        obtain ⟨tx, hx⟩ := Option.isSome_iff_exists.mp hx
        obtain ⟨ty, hy⟩ := Option.isSome_iff_exists.mp hy
        obtain ⟨tz, hz⟩ := Option.isSome_iff_exists.mp hz
        beta_reduce
        rw [compareViolations_timestamp x y tx ty hx hy,
          compareViolations_timestamp y z ty tz hy hz,
          compareViolations_timestamp x z tx tz hx hz]
        omega)
      data hvalid
    exact hsorted.imp fun {a b} hab ta tb ha hb =>
      (compareViolations_timestamp a b ta tb ha hb).mp hab
  · rintro rfl
    have hsorted := insertionSort_pairwise
      (fun x y => (compareViolations "fine_amount" x y).getD 0 ≤ 0)
      (fun _ : Violation => True)
      (fun x y _ _ => by
        beta_reduce
        rw [compareViolations_fine_amount, compareViolations_fine_amount]
        exact le_total _ _)
      (fun x y z _ _ _ => by
        beta_reduce
        rw [compareViolations_fine_amount, compareViolations_fine_amount,
          compareViolations_fine_amount]
        exact fun hxy hyz => le_trans hyz hxy)
      data (fun _ _ => trivial)
    exact hsorted.imp fun {a b} hab => (compareViolations_fine_amount a b).mp hab
  · by_cases hall : filter = "all" <;> simp [violationsParams, hall]
  · intro kv hkv
    by_cases hall : filter = "all"
    · simp [violationsParams, hall] at hkv
    · simpa [violationsParams, hall] using hkv

/-- C12, applied to three violations returned in an order sorted by neither key: sorted
by `timestamp` the stored ids are 3, 1, 2. -/
theorem fetchViolations_sorted_witness :
    (∀ v ∈ unsortedViolations, v.timestamp.isSome = true) ∧
    (fetchViolations "timestamp" (.ok unsortedViolations) Violations.initial).violations.map
      (fun v => v.id) = [3, 1, 2] ∧
    (fetchViolations "timestamp" (.ok unsortedViolations)
      Violations.initial).violations.Pairwise fun a b =>
        ∀ ta tb, a.timestamp = some ta → b.timestamp = some tb → tb ≤ ta :=
  ⟨by decide, by decide,
    (fetchViolations_sorted "timestamp" "all" unsortedViolations Violations.initial).2.1 rfl
      (by decide)⟩

/-! ### Telemetry requests in flight -/

theorem run_ticks (n : Nat) :
    ∀ w : MapWorld, (w.run (List.replicate n .tick)).map
        (fun w1 => (w1.junctionFetches, w1.vehicleFetches)) =
      some (w.junctionFetches + n, w.vehicleFetches + n) := by
  induction n with
  | zero =>
    intro w
    rfl
  | succ n ih =>
    intro w
    simp only [List.replicate_succ, MapWorld.run, MapWorld.step, Option.some_bind]
    rw [ih]
    simp only [Option.some.injEq, Prod.mk.injEq]
    omega

/-- C13 (as stated, refuted): the first timer tick fires while the two requests issued at
mount are still in flight, and it issues two more: two junction requests and two vehicle
requests are in flight. -/
theorem tick_overlaps_pending_requests :
    (MapWorld.mounted.run [.tick]).map
        (fun w => (w.junctionFetches, w.vehicleFetches)) = some (2, 2) ∧
    ¬ (2 ≤ 1) := by
  decide

/-- C13 (amended): a timer tick always issues one junction request and one vehicle
request, whatever is still in flight, and leaves the displayed state alone; so after mount
and `n` ticks without a completion, `n + 1` junction requests and `n + 1` vehicle requests
are in flight. -/
theorem tick_always_issues_pair (w : MapWorld) (n : Nat) :
    (∃ w1, w.step .tick = some w1 ∧ w1.junctionFetches = w.junctionFetches + 1 ∧
      w1.vehicleFetches = w.vehicleFetches + 1 ∧ w1.ui = w.ui) ∧
    (MapWorld.mounted.run (List.replicate n .tick)).map
        (fun w1 => (w1.junctionFetches, w1.vehicleFetches)) = some (n + 1, n + 1) := by
  refine ⟨⟨_, rfl, rfl, rfl, rfl⟩, ?_⟩
  rw [run_ticks n MapWorld.mounted]
  simp only [MapWorld.mounted, Option.some.injEq, Prod.mk.injEq]
  omega

/-! ### Junction records and their rendering -/

/-- C14 (the code at the failing input): for the id `constructor`, which is not in the
table, `getJunctionPosition` returns the member that `positions` inherits under that name
instead of the default anchor. For `J0` to `J4` it returns the table coordinate, and for an
id such as `J9` or the empty string the default anchor `[12.9716, 77.5946]`. -/
theorem getJunctionPosition_inherited_member :
    getJunctionPosition "constructor" = .builtin "constructor" ∧
    (getJunctionPosition "J0" = .arr [.num 12.9716, .num 77.5946] ∧
      getJunctionPosition "J1" = .arr [.num 12.9750, .num 77.6000] ∧
      getJunctionPosition "J2" = .arr [.num 12.9680, .num 77.5900] ∧
      getJunctionPosition "J3" = .arr [.num 12.9800, .num 77.5950] ∧
      getJunctionPosition "J4" = .arr [.num 12.9650, .num 77.6050]) ∧
    (getJunctionPosition "J9" = .arr [.num 12.9716, .num 77.5946] ∧
      getJunctionPosition "" = .arr [.num 12.9716, .num 77.5946]) :=
  ⟨rfl, ⟨rfl, rfl, rfl, rfl, rfl⟩, ⟨rfl, rfl⟩⟩

/-- C15 (the code at the failing input): for a response whose metrics record under key
`J1` carries `id: "X"` and `position: null`, the record built has `id` `"X"` and
`position` `null`, not the key and the resolved position: the spread of the metrics
record comes last and overwrites both. The snapshot still has one record per key, and the
metric fields are those of the response. -/
theorem junctionRecord_overwritten_by_metrics (fields : List (String × JSValue))
    (s : MapView) :
    (fetchJunctionData (.ok clashingJ1) s).junctions.map (fun j => getProp j "id") =
      [some (.str "X")] ∧
    (fetchJunctionData (.ok clashingJ1) s).junctions.map (fun j => getProp j "position") =
      [some .null] ∧
    (fetchJunctionData (.ok clashingJ1) s).junctions.map
      (fun j => getProp j "vehicles_count") = [some (.num 3)] ∧
    (fetchJunctionData (.ok (.obj fields)) s).junctions.length = fields.length := by
  refine ⟨rfl, rfl, rfl, ?_⟩
  simp [fetchJunctionData, objectEntries]

theorem junctionCircle_none_of_not_number (junction : JSValue)
    (h : numProp junction "avg_speed" = none ∨ numProp junction "efficiency" = none ∨
      numProp junction "waiting_time" = none) :
    junctionCircle junction = none := by
  unfold junctionCircle
  rcases h with h | h | h
  · rw [h]
  · rw [h]
    cases numProp junction "avg_speed" <;> rfl
  · rw [h]
    cases numProp junction "avg_speed" <;> cases numProp junction "efficiency" <;> rfl

theorem junctionCircle_sparse :
    junctionCircle (junctionRecord "J2" sparseMetrics) = none :=
  junctionCircle_none_of_not_number _ (Or.inl rfl)

/-- C16: for a junction record whose render completes (its `avg_speed`, `efficiency` and
`waiting_time` are numbers, as the `Popup` lines require) and whose `vehicles_count` is a
number, the circle drawn has radius `vehicles_count * 10` and, as colour and fill colour,
the value of `getJunctionColor`, which is green `#4CAF50` exactly when the efficiency is
at least 85, orange `#FF9800` exactly when it is at least 70 and below 85, and red
`#F44336` exactly when it is below 70; so an efficiency below 70 never maps to green. -/
theorem getJunctionColor_bands (efficiency count : ℚ) :
    ((getJunctionColor efficiency = "#4CAF50" ↔ efficiency ≥ 85) ∧
      (getJunctionColor efficiency = "#FF9800" ↔ 70 ≤ efficiency ∧ efficiency < 85) ∧
      (getJunctionColor efficiency = "#F44336" ↔ efficiency < 70)) ∧
    (efficiency < 70 → getJunctionColor efficiency ≠ "#4CAF50") ∧
    (∀ (junction : JSValue) (speed waiting : ℚ),
      numProp junction "vehicles_count" = some count →
      numProp junction "efficiency" = some efficiency →
      numProp junction "avg_speed" = some speed →
      numProp junction "waiting_time" = some waiting →
      (junctionCircle junction).map (fun c => (c.radius, c.color, c.fillColor)) =
        some (count * 10, getJunctionColor efficiency, getJunctionColor efficiency)) := by
  have hgo : ¬ ("#4CAF50" = "#FF9800") := by decide
  have hgr : ¬ ("#4CAF50" = "#F44336") := by decide
  have hor : ¬ ("#FF9800" = "#F44336") := by decide
  have hog : ¬ ("#FF9800" = "#4CAF50") := by decide
  have hrg : ¬ ("#F44336" = "#4CAF50") := by decide
  have hro : ¬ ("#F44336" = "#FF9800") := by decide
  have hbands : (getJunctionColor efficiency = "#4CAF50" ↔ efficiency ≥ 85) ∧
      (getJunctionColor efficiency = "#FF9800" ↔ 70 ≤ efficiency ∧ efficiency < 85) ∧
      (getJunctionColor efficiency = "#F44336" ↔ efficiency < 70) := by
    by_cases h1 : efficiency ≥ 85
    · have hc : getJunctionColor efficiency = "#4CAF50" := by simp [getJunctionColor, h1]
      rw [hc]
      exact ⟨⟨fun _ => h1, fun _ => rfl⟩,
        ⟨fun h => absurd h hgo, fun h => absurd h1 (not_le.mpr h.2)⟩,
        ⟨fun h => absurd h hgr, fun h => by linarith⟩⟩
    · by_cases h2 : efficiency ≥ 70
      · have hc : getJunctionColor efficiency = "#FF9800" := by
          simp [getJunctionColor, h1, h2]
        rw [hc]
        exact ⟨⟨fun h => absurd h hog, fun h => absurd h h1⟩,
          ⟨fun _ => ⟨h2, lt_of_not_ge h1⟩, fun _ => rfl⟩,
          ⟨fun h => absurd h hor, fun h => absurd h2 (not_le.mpr h)⟩⟩
      · have hc : getJunctionColor efficiency = "#F44336" := by
          simp [getJunctionColor, h1, h2]
        rw [hc]
        exact ⟨⟨fun h => absurd h hrg, fun h => absurd h h1⟩,
          ⟨fun h => absurd h hro, fun h => absurd h.1 h2⟩,
          ⟨fun _ => lt_of_not_ge h2, fun _ => rfl⟩⟩
  refine ⟨hbands, fun hlt hgreen => ?_, fun junction speed waiting hc he hs hw => ?_⟩
  · have := hbands.1.mp hgreen
    linarith
  · simp [junctionCircle, hc, he, hs, hw]

/-- C16, applied: the record built from the `J2` response with 40 vehicles, efficiency 62
and the other metric fields present is drawn with radius 400 in red, which is not
green. -/
theorem getJunctionColor_bands_witness :
    (fetchJunctionData (.ok congestedJ2) MapView.initial).junctions =
      [junctionRecord "J2" congestedMetrics] ∧
    (numProp (junctionRecord "J2" congestedMetrics) "vehicles_count" = some 40 ∧
      numProp (junctionRecord "J2" congestedMetrics) "efficiency" = some 62 ∧
      numProp (junctionRecord "J2" congestedMetrics) "avg_speed" = some 18.5 ∧
      numProp (junctionRecord "J2" congestedMetrics) "waiting_time" = some 45) ∧
    (62 : ℚ) < 70 ∧ getJunctionColor 62 ≠ "#4CAF50" ∧
    (junctionCircle (junctionRecord "J2" congestedMetrics)).map
      (fun c => (c.radius, c.color, c.fillColor)) =
        some (40 * 10, getJunctionColor 62, getJunctionColor 62) ∧
    (40 * 10 : ℚ) = 400 ∧ getJunctionColor 62 = "#F44336" :=
  ⟨rfl, ⟨rfl, rfl, rfl, rfl⟩, by norm_num,
    (getJunctionColor_bands 62 40).2.1 (by norm_num),
    (getJunctionColor_bands 62 40).2.2 _ 18.5 45 rfl rfl rfl rfl, by norm_num,
    (getJunctionColor_bands 62 40).1.2.2.mpr (by norm_num)⟩

/-! ### Severity of a fine -/

/-- C17: `getSeverityColor` gives high `#f44336` exactly when the amount is at least
1000, medium `#ff9800` exactly when it is at least 500 and below 1000, and low `#4caf50`
exactly when it is below 500; every amount gets exactly one of the three distinct
colours, and a larger amount never gets a lower severity. -/
theorem getSeverityColor_bands (fineAmount other : ℚ) :
    ((getSeverityColor fineAmount = "#f44336" ↔ fineAmount ≥ 1000) ∧
      (getSeverityColor fineAmount = "#ff9800" ↔ 500 ≤ fineAmount ∧ fineAmount < 1000) ∧
      (getSeverityColor fineAmount = "#4caf50" ↔ fineAmount < 500)) ∧
    (getSeverityColor fineAmount ∈ ["#f44336", "#ff9800", "#4caf50"] ∧
      ["#f44336", "#ff9800", "#4caf50"].Nodup) ∧
    (fineAmount ≤ other →
      severityRank (getSeverityColor fineAmount) ≤ severityRank (getSeverityColor other)) := by
  have hhm : ¬ ("#f44336" = "#ff9800") := by decide
  have hhl : ¬ ("#f44336" = "#4caf50") := by decide
  have hml : ¬ ("#ff9800" = "#4caf50") := by decide
  have hmh : ¬ ("#ff9800" = "#f44336") := by decide
  have hlh : ¬ ("#4caf50" = "#f44336") := by decide
  have hlm : ¬ ("#4caf50" = "#ff9800") := by decide
  refine ⟨?_, ⟨?_, by decide⟩, fun hle => ?_⟩
  · by_cases h1 : fineAmount ≥ 1000
    · have hc : getSeverityColor fineAmount = "#f44336" := by simp [getSeverityColor, h1]
      rw [hc]
      exact ⟨⟨fun _ => h1, fun _ => rfl⟩,
        ⟨fun h => absurd h hhm, fun h => absurd h1 (not_le.mpr h.2)⟩,
        ⟨fun h => absurd h hhl, fun h => by linarith⟩⟩
    · by_cases h2 : fineAmount ≥ 500
      · have hc : getSeverityColor fineAmount = "#ff9800" := by
          simp [getSeverityColor, h1, h2]
        rw [hc]
        exact ⟨⟨fun h => absurd h hmh, fun h => absurd h h1⟩,
          ⟨fun _ => ⟨h2, lt_of_not_ge h1⟩, fun _ => rfl⟩,
          ⟨fun h => absurd h hml, fun h => absurd h2 (not_le.mpr h)⟩⟩
      · have hc : getSeverityColor fineAmount = "#4caf50" := by
          simp [getSeverityColor, h1, h2]
        rw [hc]
        exact ⟨⟨fun h => absurd h hlh, fun h => absurd h h1⟩,
          ⟨fun h => absurd h hlm, fun h => absurd h.1 h2⟩,
          ⟨fun _ => lt_of_not_ge h2, fun _ => rfl⟩⟩
  · unfold getSeverityColor
    split_ifs <;> simp
  · unfold getSeverityColor
    by_cases a1 : fineAmount ≥ 1000 <;> by_cases a2 : fineAmount ≥ 500 <;>
      by_cases b1 : other ≥ 1000 <;> by_cases b2 : other ≥ 500 <;>
      simp only [a1, a2, b1, b2, if_true, if_false, severityRank, hmh, hlh, hlm] <;>
      first
        | decide
        | (exfalso; linarith)

/-- C17, applied: 1200 is classified high, and it ranks no lower than 600. -/
theorem getSeverityColor_bands_witness :
    (600 : ℚ) ≤ 1200 ∧ getSeverityColor 1200 = "#f44336" ∧
    severityRank (getSeverityColor 600) ≤ severityRank (getSeverityColor 1200) :=
  ⟨by norm_num, (getSeverityColor_bands 1200 0).1.1.mpr (by norm_num),
    (getSeverityColor_bands 600 1200).2.2 (by norm_num)⟩

end TrafficDashboard
